import Mathlib

/-!
Verification development for the go-misc concurrency-primitive and
packet-protocol core.  Each Go component that the checked claims touch is
embedded shallowly: pure Go functions become Lean functions, stateful code
becomes explicit state passing over records, Go `uint8` arithmetic is `Nat`
with an explicit `% 256` where overflow can occur, and fallible code returns
`Except`/`Option`.  Channel `select` nondeterminism is modelled by exposing
each ready branch as its own function.
-/

namespace BufferedPipeM

/-- Write-path errors of `bufferedpipe.BufferedPipe`
    (ErrorWriteTruncated / ErrorWriteFull / ErrorClosed in bufferedpipe.go). -/
inductive PipeError where
  | writeTruncated
  | writeFull
  | closed
  deriving DecidableEq, Repr

/-- State of a `bufferedpipe.BufferedPipe`: the byte queue, the capacity
    (`<= 0` means unbounded, as in Go), the two policy bits and the closed
    flag.  The signal channels are pure wake-ups and carry no state. -/
structure BufferedPipe where
  buffer : List Nat
  maximumCapacity : Int
  writeAllowTruncate : Bool
  writeBlocks : Bool
  closed : Bool
  deriving DecidableEq, Repr

/-- `BufferedPipe.remainingCapacity` from bufferedpipe.go. -/
def remainingCapacity (b : BufferedPipe) : Int :=
  if b.maximumCapacity ≤ 0 then 0 else b.maximumCapacity - b.buffer.length

/-- `NewBufferedPipe` from bufferedpipe.go. -/
def newBufferedPipe (maximumCapacity : Int) : BufferedPipe :=
  { buffer := [], maximumCapacity := maximumCapacity,
    writeAllowTruncate := false, writeBlocks := true, closed := false }

/-- `BufferedPipe.Close` from bufferedpipe.go (signal raising is stateless). -/
def pipeClose (b : BufferedPipe) : BufferedPipe :=
  { b with closed := true }

/-- `BufferedPipe.writeNonBlocking` from bufferedpipe.go: returns the byte
    count, the error, and the updated pipe. -/
def writeNonBlocking (b : BufferedPipe) (p : List Nat) :
    Nat × Option PipeError × BufferedPipe :=
  if b.closed then (0, some .closed, b)
  else if b.maximumCapacity > 0 ∧ (p.length : Int) > remainingCapacity b then
    if !b.writeAllowTruncate then (0, some .writeFull, b)
    else ((remainingCapacity b).toNat, some .writeTruncated,
      { b with buffer := b.buffer ++ p.take (remainingCapacity b).toNat })
  else (p.length, none, { b with buffer := b.buffer ++ p })

/-- `BufferedPipe.writeBlocking` from bufferedpipe.go, restricted to the
    executions that return without suspending (there is no concurrent reader
    in the sequential model): a closed pipe fails immediately, a fitting
    write completes; `none` stands for a call that parks on `canWriteSignal`. -/
def writeBlocking (b : BufferedPipe) (p : List Nat) :
    Option (Nat × Option PipeError × BufferedPipe) :=
  if b.closed then some (0, some .closed, b)
  else if b.maximumCapacity ≤ 0 ∨ (p.length : Int) ≤ remainingCapacity b then
    some (p.length, none, { b with buffer := b.buffer ++ p })
  else none

/-- `BufferedPipe.Write` from bufferedpipe.go: the zero-length fast path,
    then dispatch on `WriteBlocks`. -/
def pipeWrite (b : BufferedPipe) (p : List Nat) :
    Option (Nat × Option PipeError × BufferedPipe) :=
  if p.length = 0 then some (0, none, b)
  else if !b.writeBlocks then some (writeNonBlocking b p)
  else writeBlocking b p

end BufferedPipeM

namespace SerialPacketM

/-- Error sentinels of serialpacket.go (`ErrorTimeout`, `ErrorNack`,
    `ErrorSyncFailed`, `ErrorNotConnected`) plus the `errors.New` value
    produced by `sendPacket` for an out-of-range payload length. -/
inductive SPError where
  | timeout
  | nack
  | syncFailed
  | notConnected
  | payloadLength
  deriving DecidableEq, Repr

/-- One shift-and-xor round of CRC-8, `uint8` arithmetic made explicit. -/
def crc8Round (c : Nat) : Nat :=
  if 128 ≤ c then ((2 * c) % 256) ^^^ 0x9B else (2 * c) % 256

/-- Eight rounds, one input byte absorbed. -/
def crc8Rounds : Nat → Nat → Nat
  | 0, c => c
  | n + 1, c => crc8Rounds n (crc8Round c)

/-- CRC-8 with polynomial 0x9B and initial value 0x12, as computed by the
    crc8 library the source instantiates in its `init` (MSB first, no
    reflection, no final xor): per byte, xor into the register and run
    eight polynomial rounds. -/
def crc8Checksum (payload : List Nat) : Nat :=
  payload.foldl (fun c b => crc8Rounds 8 ((c ^^^ b) % 256)) 0x12

/-- The `crc == 0 → 0xAA` remap at the end of `SerialPacket.calcCRC`. -/
def crcRemap (c : Nat) : Nat :=
  if c = 0 then 0xAA else c

/-- `SerialPacket.calcCRC` from serialpacket.go.  On send (receive false)
    of a message type other than Ping (0x01) and ID (0x03) the CRC is xored
    with the compressed serial and the device must be synced. -/
def calcCRC (receive : Bool) (cmd : Nat) (payload : List Nat)
    (compressedSerial : Nat) (synced : Bool) : Except SPError Nat :=
  let crc := crc8Checksum payload
  if receive = false ∧ cmd ≠ 0x01 ∧ cmd ≠ 0x03 then
    let crc2 := (crc ^^^ compressedSerial) % 256
    if synced then .ok (crcRemap crc2) else .error .notConnected
  else .ok (crcRemap crc)

/-- `SerialPacket.sendPacket` from serialpacket.go: on success the returned
    list is exactly the byte sequence written to the port
    (0x42 is the sync byte, then the length byte, payload and CRC);
    on error nothing reaches the port. -/
def sendPacket (payload : List Nat) (compressedSerial : Nat) (synced : Bool) :
    Except SPError (List Nat) :=
  if 256 ≤ payload.length ∨ payload.length < 1 then .error .payloadLength
  else
    match calcCRC false (payload.headD 0) payload compressedSerial synced with
    | .error e => .error e
    | .ok crc => .ok (0x42 :: payload.length :: (payload ++ [crc]))

/-- The framed packet `SerialPacket.SendCommand` builds before handing it to
    the dispatch loop: the command byte followed by the user payload. -/
def sendCommandPacket (cmd : Nat) (payload : List Nat) : List Nat :=
  cmd :: payload

/-- Receiver states of serialpacket.go (`receiverStateType`). -/
inductive RecvState where
  | waitSync
  | readLength
  | readPacket
  | readCRC
  deriving DecidableEq, Repr

/-- Receiver-side state of a `SerialPacket` plus the observable effects of
    dispatching: completed command replies, unsolicited handler calls and
    `sendReset` invocations. -/
structure SPRecv where
  rstate : RecvState
  plen : Nat
  pbuf : List Nat
  compressedSerial : Nat
  synced : Bool
  currentCommand : Bool
  hasUnsolHandler : Bool
  replies : List (List Nat × Option SPError)
  unsols : List (Nat × List Nat)
  resets : Nat
  deriving DecidableEq, Repr

/-- `SerialPacket.processCommandReply` from serialpacket.go: a non-nil error
    triggers `sendReset`; an outstanding command, if any, is completed once. -/
def processCommandReply (s : SPRecv) (payload : List Nat)
    (err : Option SPError) : SPRecv :=
  let s1 := if err.isSome then { s with resets := s.resets + 1 } else s
  if s1.currentCommand then
    { s1 with replies := s1.replies ++ [(payload, err)], currentCommand := false }
  else s1

/-- One byte of `SerialPacket.processInput` from serialpacket.go. -/
def stepSP (s : SPRecv) (m : Nat) : SPRecv :=
  match s.rstate with
  | .waitSync =>
      if m = 0x42 then { s with rstate := .readLength } else s
  | .readLength =>
      if m = 0 then { s with plen := m, pbuf := [], rstate := .waitSync }
      else { s with plen := m, pbuf := [], rstate := .readPacket }
  | .readPacket =>
      let buf := s.pbuf ++ [m]
      if buf.length = s.plen then { s with pbuf := buf, rstate := .readCRC }
      else { s with pbuf := buf }
  | .readCRC =>
      let s2 :=
        match calcCRC true 0 s.pbuf s.compressedSerial s.synced with
        | .error _ => s
        | .ok crc =>
          if crc = m then
            let msgType := s.pbuf.headD 0
            let rest := s.pbuf.tail
            if msgType = 0xFF then processCommandReply s rest none
            else if msgType = 0xFE then processCommandReply s rest (some .nack)
            else if s.hasUnsolHandler then
              { s with unsols := s.unsols ++ [(msgType, rest)] }
            else s
          else s
      { s2 with rstate := .waitSync }

/-- `SerialPacket.processInput` over a whole buffer. -/
def processInput (s : SPRecv) (buffer : List Nat) : SPRecv :=
  buffer.foldl stepSP s

end SerialPacketM

namespace SlotSetM

/-- `stateType` of slotset/slot.go. -/
inductive SlotState where
  | notGiven
  | inactive
  | active
  | waitPost
  deriving DecidableEq, Repr

/-- A `slotset.Slot`: its lifecycle state, the capacity-1 `errChan` cell
    (the stored value is the posted error, itself possibly nil) and whether
    `close(errChan)` has happened.  The stable id lives in the set's list
    index. -/
structure MSlot where
  state : SlotState
  cell : Option (Option Nat)
  chanClosed : Bool
  deriving DecidableEq, Repr

/-- A `slotset.SlotSet`: the slot array, the free queue `slotQueue`
    (list of slot indices, front = next receive) and the close flag. -/
structure MSlotSet where
  slots : List MSlot
  queue : List Nat
  closed : Bool
  deriving DecidableEq, Repr

/-- `SlotSet.New` from slotset.go: `n` fresh slots, all queued. -/
def newSlotSet (n : Nat) : MSlotSet :=
  { slots := List.replicate n { state := .notGiven, cell := none, chanClosed := false },
    queue := List.range n,
    closed := false }

/-- `Slot.prepare` from slot.go: asserts the slot was not given out, marks it
    inactive and drains `errChan` of spurious responses, leaving the cell
    empty whether or not the channel was closed.  `none` is the assertion
    failure. -/
def prepareSlot (sl : MSlot) : Option MSlot :=
  if sl.state = .notGiven then
    some { sl with state := .inactive, cell := none }
  else none

/-- The `slotQueue` branch of the `select` in `SlotSet.Get` (slotset.go):
    ready exactly when the queue is non-empty, and then returns the prepared
    slot with a nil error.  Go picks among ready `select` branches
    nondeterministically, so this branch can be taken whenever it is ready. -/
def getViaQueue (s : MSlotSet) : Option (MSlotSet × Nat × MSlot) :=
  match s.queue with
  | [] => none
  | id :: rest =>
    match s.slots.get? id with
    | none => none
    | some sl =>
      match prepareSlot sl with
      | none => none
      | some sl2 =>
        some ({ s with queue := rest, slots := s.slots.set id sl2 }, id, sl2)

/-- The `closed.Chan()` branch of the `select` in `SlotSet.Get`: ready once
    the set is closed, and then Get returns `ErrorClosed`. -/
def getClosedBranchReady (s : MSlotSet) : Bool :=
  s.closed

/-- `SlotSet.Close` from slotset.go: first close marks the flag, closes every
    slot's `errChan`, and drains a single element from `slotQueue`
    (the `select` with a `default` case removes at most one slot). -/
def slotsetClose (s : MSlotSet) : MSlotSet :=
  if s.closed then s
  else
    { slots := s.slots.map (fun sl => { sl with chanClosed := true }),
      queue := s.queue.tail,
      closed := true }

/-- Outcome of the `errChan` receive in `Slot.WaitCtx` (slot.go) when the
    context is not cancelled: a buffered value is delivered as `(true, err)`,
    a closed empty channel yields `(false, ErrorClosed)`, otherwise the call
    blocks until a later post, close or cancellation. -/
inductive SlotWaitRes where
  | value (err : Option Nat)
  | closedErr
  | blocked
  deriving DecidableEq, Repr

/-- The receive branch of `Slot.WaitCtx` from slot.go. -/
def waitCtxRecv (sl : MSlot) : SlotWaitRes :=
  match sl.cell with
  | some e => .value e
  | none => if sl.chanClosed then .closedErr else .blocked

end SlotSetM

namespace TokenQueueM

/-- A `tokenqueue.Queue` at rest: the three token channels as lists of token
    ids (front = next receive), the capacities and the closed bit. -/
structure MQueue where
  closed : Bool
  maxCapacity : Nat
  targetCapacity : Nat
  currentCapacity : Nat
  available : List Nat
  committed : List Nat
  discard : List Nat
  deriving DecidableEq, Repr

/-- `Queue.Close` from tokenqueue (part_006): the second close returns
    immediately without cleaning anything; the first close drains the
    available and committed channels completely, then takes exactly the
    remaining count from the discard channel, calling `Cleanup` on each
    drained token.  The returned list is the tokens cleaned, in drain order.
    `none` stands for the executions that do not return: a blocked receive
    on `discardTokens` (fewer tokens than the remaining count) or the
    `capacityRemaining == 0` assertion failing. -/
def closeQ (q : MQueue) : Option (MQueue × List Nat) :=
  if q.closed then some (q, [])
  else
    let part1 := q.available ++ q.committed
    if q.maxCapacity < part1.length then none
    else
      let rem := q.maxCapacity - part1.length
      if q.discard.length < rem then none
      else
        let q2 := { q with closed := true, available := ([] : List Nat),
                           committed := ([] : List Nat),
                           discard := q.discard.drop rem }
        some (q2, part1 ++ q.discard.take rem)

end TokenQueueM

namespace WaitStateM

/-- A `waitstate.WaitState` (part_013): the value cell (modelled over `Nat`),
    the update counter, whether an update channel is currently allocated,
    and the closed flag. -/
structure MWaitState where
  value : Nat
  updateCount : Nat
  updateChanOpen : Bool
  closed : Bool
  deriving DecidableEq, Repr

/-- `WaitState.Set` from part_013: install the value, bump the counter by
    one, and close the update channel (releasing all waiters). -/
def setW (w : MWaitState) (v : Nat) : MWaitState :=
  { w with value := v, updateCount := w.updateCount + 1, updateChanOpen := false }

/-- `WaitState.Close` from part_013. -/
def closeW (w : MWaitState) : MWaitState :=
  { w with closed := true, updateChanOpen := false }

/-- Mutating operations on a WaitState, for reasoning about op sequences. -/
inductive WSOp where
  | set (v : Nat)
  | close
  deriving DecidableEq, Repr

def applyOp (w : MWaitState) : WSOp → MWaitState
  | .set v => setW w v
  | .close => closeW w

def applyOps (w : MWaitState) (ops : List WSOp) : MWaitState :=
  ops.foldl applyOp w

/-- Result of one pass of the loop in `WaitState.Get` (part_013): error if
    closed, the observed `(count, value)` if the predicate passes (a nil
    predicate counts as true), otherwise the call subscribes and waits. -/
inductive GetOutcome where
  | closedErr
  | ready (count : Nat) (value : Nat)
  | waits
  deriving DecidableEq, Repr

/-- `WaitState.Get` from part_013 (one evaluation of the predicate). -/
def getW (w : MWaitState) (pred : Option (Nat → Nat → Bool)) : GetOutcome :=
  if w.closed then .closedErr
  else
    match pred with
    | none => .ready w.updateCount w.value
    | some p =>
      if p w.updateCount w.value then .ready w.updateCount w.value else .waits

end WaitStateM

namespace HDLCM

/-- The default HDLC framer configuration produced by `NewHDLCFramer` with
    nil options (hdlc source, in the slotset_test.go bundle): frame start,
    frame end 0x7E, escape 0x7D, escape xor 0x20, maxPacketLen 256, CRC
    type none. -/
def frameBoundary : Nat := 0x7E

def frameEscape : Nat := 0x7D

def escapeXOR : Nat := 0x20

def maxPacketLen : Nat := 256

/-- The default `TxCharsEscape` table: bytes 0x00..0x1F plus the frame
    start/end and escape bytes forced in the constructor. -/
def txEscape (b : Nat) : Bool :=
  b < 0x20 || b = 0x7D || b = 0x7E

/-- The default `RxCharsIgnore` table: bytes 0x00..0x1F. -/
def rxIgnore (b : Nat) : Bool :=
  b < 0x20

/-- `HDLC.writeEscaped`: escape-encode a byte string. -/
def writeEscaped : List Nat → List Nat
  | [] => []
  | b :: r =>
    if txEscape b then frameEscape :: (b ^^^ escapeXOR) :: writeEscaped r
    else b :: writeEscaped r

/-- Modelled from the spec: the multicrc module (`NewCRC`, `AddBytes`,
    `ResultBytes`, `ResultLenBytes`) is not part of the provided sources.
    The spec fixes the default CRC type to "none", whose result is empty
    and whose byte length is zero. -/
def crcNoneBytes (_payload : List Nat) : List Nat := []

/-- Modelled from the spec: byte length of the "none" CRC result. -/
def crcNoneLen : Nat := 0

/-- `HDLC.SendPacket` with the default configuration: the exact wire bytes:
    frame start, escaped payload, escaped CRC of the raw payload, frame end. -/
def sendWire (payload : List Nat) : List Nat :=
  frameBoundary :: (writeEscaped payload ++ writeEscaped (crcNoneBytes payload))
    ++ [frameBoundary]

/-- Receive-loop state of `HDLC.Run`: the accumulated frame, the
    escape-pending and validity flags, and the payloads delivered to the
    received-packet handler, in order. -/
structure HDLCRx where
  rxBuf : List Nat
  isEscaped : Bool
  isValid : Bool
  delivered : List (List Nat)
  deriving DecidableEq, Repr

def hdlcRxInit : HDLCRx :=
  { rxBuf := [], isEscaped := false, isValid := true, delivered := [] }

/-- The `reset` closure inside `HDLC.Run`. -/
def hdlcReset (s : HDLCRx) : HDLCRx :=
  { s with rxBuf := [], isEscaped := false, isValid := true }

/-- One byte of the receive loop of `HDLC.Run`, default configuration.
    The frame-end test comes first in the source; since the default frame
    start equals the frame end, the source's frame-start branch is
    unreachable here.  With the "none" CRC the checksum comparison at
    frame end always succeeds, so a positive-length valid frame is
    delivered whole. -/
def hdlcStep (s : HDLCRx) (m : Nat) : HDLCRx :=
  let s1 :=
    if m = frameBoundary then
      if 0 < s.rxBuf.length then
        if s.isValid && !s.isEscaped then
          hdlcReset { s with delivered := s.delivered ++ [s.rxBuf] }
        else hdlcReset s
      else hdlcReset s
    else if rxIgnore m then s
    else if s.isEscaped then
      { s with isEscaped := false,
               rxBuf := if s.isValid then s.rxBuf ++ [m ^^^ escapeXOR] else s.rxBuf }
    else if m = frameEscape then { s with isEscaped := true }
    else if s.isValid then { s with rxBuf := s.rxBuf ++ [m] }
    else s
  if s1.isValid && decide (maxPacketLen < s1.rxBuf.length) then
    { s1 with isValid := false }
  else s1

/-- The receive loop of `HDLC.Run` over a byte stream. -/
def hdlcRun (s : HDLCRx) (input : List Nat) : HDLCRx :=
  input.foldl hdlcStep s

end HDLCM

section ClaimC4
open BufferedPipeM

/-- C4: BoundedPipe non-blocking write: for a non-fitting write on an open
    pipe with WriteBlocks = false, if WriteAllowTruncate = false the call
    returns count 0 with error WriteFull and the buffer is unchanged; if
    WriteAllowTruncate = true it appends exactly the remaining capacity,
    returns that partial count, and reports WriteTruncated. -/
theorem bufferedpipe_write_nonblocking (b : BufferedPipe) (p : List Nat)
    (hopen : b.closed = false) (hnb : b.writeBlocks = false)
    (hcap : 0 < b.maximumCapacity)
    (hinv : (b.buffer.length : Int) ≤ b.maximumCapacity)
    (hbig : remainingCapacity b < (p.length : Int)) :
    (b.writeAllowTruncate = false →
      pipeWrite b p = some (0, some .writeFull, b)) ∧
    (b.writeAllowTruncate = true →
      pipeWrite b p =
        some ((remainingCapacity b).toNat, some .writeTruncated,
          { b with buffer := b.buffer ++ p.take (remainingCapacity b).toNat })) := by
  have hrem0 : 0 ≤ remainingCapacity b := by
    unfold remainingCapacity
    rw [if_neg (by omega)]
    omega
  have hp0 : ¬ p.length = 0 := by
    intro h
    rw [h] at hbig
    simp at hbig
    omega
  constructor
  · intro ht
    simp [pipeWrite, hp0, hnb, writeNonBlocking, hopen, hcap, hbig, ht]
  · intro ht
    simp [pipeWrite, hp0, hnb, writeNonBlocking, hopen, hcap, hbig, ht]

/-- Witness for C4 at a concrete pipe: capacity 3, two bytes buffered,
    truncating write of three bytes stores only the one byte that fits. -/
theorem bufferedpipe_write_nonblocking_witness :
    pipeWrite
        { buffer := [1, 2], maximumCapacity := 3, writeAllowTruncate := true,
          writeBlocks := false, closed := false } [7, 8, 9] =
      some (1, some .writeTruncated,
        { buffer := [1, 2, 7], maximumCapacity := 3, writeAllowTruncate := true,
          writeBlocks := false, closed := false }) :=
  (bufferedpipe_write_nonblocking _ _ rfl rfl (by decide) (by decide) (by decide)).2 rfl

end ClaimC4

section ClaimC5
open BufferedPipeM

/-- A pipe of capacity 5 that has been closed, used to exhibit the
    zero-length-write fast path. -/
def cexPipe : BufferedPipe := pipeClose (newBufferedPipe 5)

/-- C5 counterexample: a Write of the empty byte sequence issued after
    Close() returns count 0 with a nil error (the zero-length fast path in
    `BufferedPipe.Write` runs before the closed check), not error Closed as
    the claim demands for every byte sequence including the empty one. -/
theorem bufferedpipe_closed_write_cex :
    pipeWrite cexPipe [] = some (0, none, cexPipe) ∧
    (none : Option PipeError) ≠ some PipeError.closed := by
  exact ⟨rfl, by decide⟩

/-- C5 (amended): for every non-empty byte sequence and in both blocking and
    non-blocking mode, a Write issued after Close() fails immediately with
    error Closed, returns count 0, and leaves the buffered contents
    unchanged. -/
theorem bufferedpipe_closed_write (b : BufferedPipe) (p : List Nat)
    (hcl : b.closed = true) (hne : p ≠ []) :
    pipeWrite b p = some (0, some .closed, b) := by
  have hl : ¬ p.length = 0 := fun h => hne (List.length_eq_zero.mp h)
  by_cases hbm : b.writeBlocks
  · simp [pipeWrite, hl, hbm, writeBlocking, hcl]
  · simp [pipeWrite, hl, hbm, writeNonBlocking, hcl]

/-- Witness for C5 at a concrete closed pipe and a one-byte write. -/
theorem bufferedpipe_closed_write_witness :
    pipeWrite
        { buffer := [4], maximumCapacity := 5, writeAllowTruncate := false,
          writeBlocks := true, closed := true } [1] =
      some (0, some .closed,
        { buffer := [4], maximumCapacity := 5, writeAllowTruncate := false,
          writeBlocks := true, closed := true }) :=
  bufferedpipe_closed_write _ _ rfl (by decide)

end ClaimC5

section ClaimC8
open WaitStateM

/-- C8: every Set(v) increments updateCount by exactly 1 and changes nothing
    observable but the stored value (and the released update channel); the
    counts observed across any sequence of further operations never
    decrease; and a Get issued right after Set(v) observes value v and the
    count Set produced. -/
theorem waitstate_update_counter :
    (∀ (w : MWaitState) (v : Nat),
        (setW w v).updateCount = w.updateCount + 1 ∧
        (setW w v).value = v ∧ (setW w v).closed = w.closed) ∧
    (∀ (w : MWaitState) (ops : List WSOp),
        w.updateCount ≤ (applyOps w ops).updateCount) ∧
    (∀ (w : MWaitState) (v : Nat), w.closed = false →
        getW (setW w v) none = .ready (w.updateCount + 1) v) := by
  refine ⟨fun w v => ⟨rfl, rfl, rfl⟩, ?_, fun w v hw => by simp [getW, setW, hw]⟩
  intro w ops
  induction ops generalizing w with
  | nil => simp [applyOps]
  | cons op rest ih =>
    have h1 : w.updateCount ≤ (applyOp w op).updateCount := by
      cases op <;> simp [applyOp, setW, closeW]
    have h2 : applyOps w (op :: rest) = applyOps (applyOp w op) rest := by
      simp [applyOps]
    rw [h2]
    exact Nat.le_trans h1 (ih _)

/-- Witness for C8: a concrete open WaitState with count 5 observed right
    after Set 42 yields count 6 and value 42. -/
theorem waitstate_update_counter_witness :
    getW (setW { value := 0, updateCount := 5, updateChanOpen := true,
                 closed := false } 42) none = .ready 6 42 :=
  waitstate_update_counter.2.2
    { value := 0, updateCount := 5, updateChanOpen := true, closed := false } 42 rfl

end ClaimC8

section ClaimC9
open SerialPacketM

/-- C9: a framed payload of length 0 or of length 256 or more makes
    sendPacket return an error before writing any byte (the ok result of the
    model carries exactly the bytes written); hence every SendCommand whose
    user payload exceeds 254 bytes fails and puts nothing on the wire. -/
theorem serialpacket_send_length_bound :
    (∀ (payload : List Nat) (serial : Nat) (synced : Bool),
        payload.length = 0 ∨ 256 ≤ payload.length →
        sendPacket payload serial synced = .error .payloadLength) ∧
    (∀ (cmd : Nat) (user : List Nat) (serial : Nat) (synced : Bool),
        254 < user.length →
        sendPacket (sendCommandPacket cmd user) serial synced =
          .error .payloadLength) := by
  constructor
  · intro payload serial synced h
    unfold sendPacket
    rw [if_pos (by omega)]
  · intro cmd user serial synced h
    unfold sendPacket
    rw [if_pos (by simp [sendCommandPacket]; omega)]

/-- Witness for C9: a 255-byte user payload (256-byte framed packet) is
    rejected without any wire bytes. -/
theorem serialpacket_send_length_bound_witness :
    sendPacket (sendCommandPacket 0x10 (List.replicate 255 0)) 0 true =
      .error .payloadLength :=
  serialpacket_send_length_bound.2 0x10 (List.replicate 255 0) 0 true
    (by rw [List.length_replicate]; omega)

end ClaimC9

section ClaimC2
open SerialPacketM

/-- C2: for every outgoing packet: when the message type is neither Ping
    (0x01) nor ID (0x03) the wire CRC byte equals CRC-8 (poly 0x9B, init
    0x12) of the payload XORed with the device's compressedSerial and an
    unsynced device makes the send fail NotConnected; for Ping and ID the
    wire CRC byte is the un-XORed CRC-8 regardless of sync; and whenever
    the resulting CRC value is 0 the byte put on the wire is 0xAA. -/
theorem serialpacket_send_crc (payload : List Nat) (serial : Nat) (synced : Bool)
    (hne : payload ≠ []) (hlen : payload.length < 256) :
    (payload.headD 0 ≠ 0x01 → payload.headD 0 ≠ 0x03 →
      (synced = true →
        sendPacket payload serial synced =
          .ok (0x42 :: payload.length ::
            (payload ++ [crcRemap ((crc8Checksum payload ^^^ serial) % 256)]))) ∧
      (synced = false → sendPacket payload serial synced = .error .notConnected)) ∧
    (payload.headD 0 = 0x01 ∨ payload.headD 0 = 0x03 →
      sendPacket payload serial synced =
        .ok (0x42 :: payload.length ::
          (payload ++ [crcRemap (crc8Checksum payload)]))) ∧
    ((crc8Checksum payload ^^^ serial) % 256 = 0 →
      crcRemap ((crc8Checksum payload ^^^ serial) % 256) = 0xAA) ∧
    (crc8Checksum payload = 0 → crcRemap (crc8Checksum payload) = 0xAA) := by
  have hl1 : 1 ≤ payload.length := by
    cases payload with
    | nil => simp at hne
    | cons a r => simp
  have hcond : ¬ (256 ≤ payload.length ∨ payload.length < 1) := by omega
  refine ⟨fun h1 h3 => ⟨fun hs => ?_, fun hs => ?_⟩, fun hping => ?_,
    fun hz => ?_, fun hz => ?_⟩
  · unfold sendPacket calcCRC
    rw [if_neg hcond, if_pos ⟨rfl, h1, h3⟩, hs, if_pos rfl]
  · unfold sendPacket calcCRC
    rw [if_neg hcond, if_pos ⟨rfl, h1, h3⟩, hs, if_neg (by decide)]
  · have hni : ¬ (false = false ∧
        payload.headD 0 ≠ 0x01 ∧ payload.headD 0 ≠ 0x03) := by
      rcases hping with h | h
      · exact fun hc => hc.2.1 h
      · exact fun hc => hc.2.2 h
    unfold sendPacket calcCRC
    rw [if_neg hcond, if_neg hni]
  · simp [crcRemap, hz]
  · simp [crcRemap, hz]

/-- Witness for C2: payload [0x10, 0x20] on a synced device with compressed
    serial 0x5A goes on the wire with CRC byte 18 = crc8(payload) xor 0x5A,
    and a Ping packet [0x01, 0x33] sends even unsynced with the un-XORed
    CRC byte 161 = crc8(payload). -/
theorem serialpacket_send_crc_witness :
    sendPacket [0x10, 0x20] 0x5A true = .ok [0x42, 2, 0x10, 0x20, 18] ∧
    sendPacket [0x01, 0x33] 0x5A false = .ok [0x42, 2, 0x01, 0x33, 161] :=
  ⟨((serialpacket_send_crc [0x10, 0x20] 0x5A true (by decide) (by decide)).1
      (by decide) (by decide)).1 rfl,
   (serialpacket_send_crc [0x01, 0x33] 0x5A false (by decide) (by decide)).2.1
      (Or.inl rfl)⟩

end ClaimC2

section ClaimC3
open SerialPacketM

/-- On receive `calcCRC` ignores the serial and the sync bit: it is the raw
    CRC-8 of the payload with the zero value remapped to 0xAA. -/
theorem calcCRC_receive_eq (cmd : Nat) (payload : List Nat) (serial : Nat)
    (synced : Bool) :
    calcCRC true cmd payload serial synced = .ok (crcRemap (crc8Checksum payload)) := by
  simp [calcCRC]

/-- C3: the packet-protocol receiver state machine: a zero length byte
    abandons the frame to WaitSync without dispatching; in ReadCRC the CRC
    is the serial-free CRC-8 of the received payload with 0 remapped to
    0xAA, and only on a match is the frame dispatched (Ack completes the
    outstanding command with a nil error, Nack with the Nack error, any
    other type goes to the unsolicited handler when set); in every case the
    receiver returns to WaitSync. -/
theorem serialpacket_receiver_machine :
    (∀ (s : SPRecv), s.rstate = .readLength →
        stepSP s 0 = { s with plen := 0, pbuf := [], rstate := .waitSync }) ∧
    (∀ (cmd : Nat) (payload : List Nat) (serial : Nat) (synced : Bool),
        calcCRC true cmd payload serial synced =
          .ok (crcRemap (crc8Checksum payload))) ∧
    (∀ (s : SPRecv) (m : Nat), s.rstate = .readCRC →
        (stepSP s m).rstate = .waitSync) ∧
    (∀ (s : SPRecv), s.rstate = .readCRC →
        (s.pbuf.headD 0 = 0xFF →
          stepSP s (crcRemap (crc8Checksum s.pbuf)) =
            { processCommandReply s s.pbuf.tail none with rstate := .waitSync }) ∧
        (s.pbuf.headD 0 = 0xFE →
          stepSP s (crcRemap (crc8Checksum s.pbuf)) =
            { processCommandReply s s.pbuf.tail (some .nack) with
                rstate := .waitSync }) ∧
        (s.pbuf.headD 0 ≠ 0xFF → s.pbuf.headD 0 ≠ 0xFE →
          s.hasUnsolHandler = true →
          stepSP s (crcRemap (crc8Checksum s.pbuf)) =
            { s with unsols := s.unsols ++ [(s.pbuf.headD 0, s.pbuf.tail)],
                     rstate := .waitSync })) ∧
    (∀ (s : SPRecv) (m : Nat), s.rstate = .readCRC →
        m ≠ crcRemap (crc8Checksum s.pbuf) →
        stepSP s m = { s with rstate := .waitSync }) ∧
    (∀ (s : SPRecv) (payload : List Nat), s.currentCommand = true →
        processCommandReply s payload none =
          { s with replies := s.replies ++ [(payload, none)],
                   currentCommand := false } ∧
        processCommandReply s payload (some .nack) =
          { s with replies := s.replies ++ [(payload, some .nack)],
                   currentCommand := false, resets := s.resets + 1 }) := by
  refine ⟨?_, calcCRC_receive_eq, ?_, ?_, ?_, ?_⟩
  · intro s hs
    unfold stepSP
    rw [hs]
    rfl
  · intro s m hs
    unfold stepSP
    rw [hs, calcCRC_receive_eq]
  · intro s hs
    refine ⟨fun hty => ?_, fun hty => ?_, fun hty1 hty2 hhu => ?_⟩
    · unfold stepSP
      rw [hs, calcCRC_receive_eq]
      dsimp only
      rw [if_pos rfl, if_pos hty]
    · have hne255 : ¬ s.pbuf.headD 0 = 0xFF := by rw [hty]; decide
      unfold stepSP
      rw [hs, calcCRC_receive_eq]
      dsimp only
      rw [if_pos rfl, if_neg hne255, if_pos hty]
    · unfold stepSP
      rw [hs, calcCRC_receive_eq]
      dsimp only
      rw [if_pos rfl, if_neg hty1, if_neg hty2, hhu, if_pos rfl]
  · intro s m hs hm
    have hnm : ¬ crcRemap (crc8Checksum s.pbuf) = m := fun h => hm h.symm
    unfold stepSP
    rw [hs, calcCRC_receive_eq]
    dsimp only
    rw [if_neg hnm]
  · intro s payload hc
    have hnone : ¬ (none : Option SPError).isSome = true := by decide
    have hsome : ((some SPError.nack : Option SPError).isSome) = true := by decide
    constructor
    · unfold processCommandReply
      rw [if_neg hnone, if_pos hc]
    · unfold processCommandReply
      rw [if_pos hsome]
      have hc2 : ({ s with resets := s.resets + 1 } : SPRecv).currentCommand = true := hc
      rw [if_pos hc2]

/-- Witness for C3: a concrete ReadCRC state holding an Ack frame with an
    outstanding command dispatches the reply with a nil error and returns
    to WaitSync. -/
theorem serialpacket_receiver_machine_witness :
    stepSP
        { rstate := .readCRC, plen := 2, pbuf := [0xFF, 0x07],
          compressedSerial := 0x5A, synced := true, currentCommand := true,
          hasUnsolHandler := false, replies := [], unsols := [], resets := 0 }
        (crcRemap (crc8Checksum [0xFF, 0x07])) =
      { rstate := .waitSync, plen := 2, pbuf := [0xFF, 0x07],
        compressedSerial := 0x5A, synced := true, currentCommand := false,
        hasUnsolHandler := false, replies := [([0x07], none)], unsols := [],
        resets := 0 } :=
  (serialpacket_receiver_machine.2.2.2.1
    { rstate := .readCRC, plen := 2, pbuf := [0xFF, 0x07],
      compressedSerial := 0x5A, synced := true, currentCommand := true,
      hasUnsolHandler := false, replies := [], unsols := [], resets := 0 }
    rfl).1 rfl

end ClaimC3

section ClaimC7
open TokenQueueM

/-- C7: on a quiescent queue (all max tokens at rest in the three channels)
    the first Close cleans up exactly the max tokens — the available and
    committed channels completely, then exactly the remaining count from
    discard — each token as often as it sits in the channels; every later
    Close returns without draining or cleaning anything. -/
theorem tokenqueue_close (q : MQueue) (hopen : q.closed = false)
    (hq : q.available.length + q.committed.length + q.discard.length =
        q.maxCapacity) :
    closeQ q =
      some ({ q with closed := true, available := [], committed := [],
                     discard := [] },
            q.available ++ q.committed ++ q.discard) ∧
    (q.available ++ q.committed ++ q.discard).length = q.maxCapacity ∧
    (∀ t, (q.available ++ q.committed ++ q.discard).count t =
        q.available.count t + q.committed.count t + q.discard.count t) ∧
    closeQ { q with closed := true, available := [], committed := [],
                    discard := [] } =
      some ({ q with closed := true, available := [], committed := [],
                     discard := [] }, []) := by
  have hlen : (q.available ++ q.committed).length =
      q.available.length + q.committed.length := List.length_append _ _
  have hle : ¬ q.maxCapacity < (q.available ++ q.committed).length := by
    rw [hlen]; omega
  have hrem : q.maxCapacity - (q.available ++ q.committed).length =
      q.discard.length := by
    rw [hlen]; omega
  refine ⟨?_, ?_, ?_, ?_⟩
  · unfold closeQ
    rw [if_neg (by simp [hopen]), if_neg hle]
    have hdl : ¬ q.discard.length <
        q.maxCapacity - (q.available ++ q.committed).length := by
      rw [hrem]; omega
    rw [if_neg hdl, hrem, List.drop_length, List.take_length, List.append_assoc]
  · simp
    omega
  · intro t
    simp [List.count_append]
    omega
  · unfold closeQ
    rw [if_pos rfl]

/-- Witness for C7: a queue of three tokens, one in each channel, cleans
    exactly the three tokens on first Close and nothing on the second. -/
theorem tokenqueue_close_witness :
    closeQ { closed := false, maxCapacity := 3, targetCapacity := 3,
             currentCapacity := 3, available := [0], committed := [1],
             discard := [2] } =
      some ({ closed := true, maxCapacity := 3, targetCapacity := 3,
              currentCapacity := 3, available := [], committed := [],
              discard := [] }, [0] ++ [1] ++ [2]) :=
  (tokenqueue_close
    { closed := false, maxCapacity := 3, targetCapacity := 3,
      currentCapacity := 3, available := [0], committed := [1], discard := [2] }
    rfl rfl).1

end ClaimC7

section ClaimC6
open SlotSetM

/-- C6: the claim demands that after Close() every Get fails with Closed no
    matter how many slots were free.  The code drains a single element from
    the free queue; on a freshly closed two-slot set, slot 1 is still
    queued, the `slotQueue` branch of Get's select is ready at the same
    time as the `closed.Chan()` branch, and taking it returns slot 1 with a
    nil error instead of ErrorClosed. -/
theorem slotset_close_get_bug :
    (slotsetClose (newSlotSet 2)).closed = true ∧
    (slotsetClose (newSlotSet 2)).queue = [1] ∧
    getClosedBranchReady (slotsetClose (newSlotSet 2)) = true ∧
    getViaQueue (slotsetClose (newSlotSet 2)) =
      some ({ slots := [{ state := .notGiven, cell := none, chanClosed := true },
                        { state := .inactive, cell := none, chanClosed := true }],
              queue := [], closed := true }, 1,
            { state := .inactive, cell := none, chanClosed := true }) := by
  refine ⟨rfl, rfl, rfl, rfl⟩

end ClaimC6

section ClaimC10
open SlotSetM

/-- C10: Get drains the slot's signal cell while preparing it: prepare
    leaves the cell empty, every slot handed out by the queue branch of Get
    has an empty cell, and a WaitCtx receive on such a slot blocks (so it
    can only observe a Post made after the Get, a cancellation, or the
    set's Closed signal). -/
theorem slot_signal_freshness :
    (∀ (sl : MSlot), sl.state = .notGiven →
        prepareSlot sl = some { sl with state := .inactive, cell := none }) ∧
    (∀ (s s2 : MSlotSet) (id : Nat) (sl : MSlot),
        getViaQueue s = some (s2, id, sl) → sl.cell = none) ∧
    (∀ (sl : MSlot), sl.cell = none → sl.chanClosed = false →
        waitCtxRecv sl = .blocked) := by
  refine ⟨?_, ?_, ?_⟩
  · intro sl hst
    unfold prepareSlot
    rw [if_pos hst]
  · intro s s2 id sl h
    unfold getViaQueue at h
    rcases hq : s.queue with _ | ⟨i, rest⟩ <;> rw [hq] at h <;> dsimp only at h
    · exact absurd h (by simp)
    · rcases hg : s.slots.get? i with _ | sl0 <;> rw [hg] at h <;> dsimp only at h
      · exact absurd h (by simp)
      · unfold prepareSlot at h
        by_cases hst : sl0.state = .notGiven
        · rw [if_pos hst] at h
          dsimp only at h
          simp only [Option.some.injEq, Prod.mk.injEq] at h
          rw [← h.2.2]
        · rw [if_neg hst] at h
          exact absurd h (by simp)
  · intro sl hc hcl
    unfold waitCtxRecv
    rw [hc, hcl]
    rfl

/-- Witness for C10: a concrete inactive slot with a drained cell and an
    open channel blocks in WaitCtx. -/
theorem slot_signal_freshness_witness :
    waitCtxRecv { state := .inactive, cell := none, chanClosed := false } =
      .blocked :=
  slot_signal_freshness.2.2
    { state := .inactive, cell := none, chanClosed := false } rfl rfl

end ClaimC10

section ClaimC1
open HDLCM

lemma hdlcRun_cons (s : HDLCRx) (x : Nat) (xs : List Nat) :
    hdlcRun s (x :: xs) = hdlcRun (hdlcStep s x) xs := rfl

lemma hdlcRun_append (s : HDLCRx) (xs ys : List Nat) :
    hdlcRun s (xs ++ ys) = hdlcRun (hdlcRun s xs) ys := by
  simp [hdlcRun, List.foldl_append]

/-- Processing the escape byte from a clean, valid, in-bounds state only
    raises the escape-pending flag. -/
lemma hdlcStep_escape (s : HDLCRx) (hesc : s.isEscaped = false)
    (hval : s.isValid = true) (hlen : s.rxBuf.length ≤ 256) :
    hdlcStep s frameEscape = { s with isEscaped := true } := by
  obtain ⟨buf, esc, valid, del⟩ := s
  dsimp only at hesc hval hlen
  subst hesc
  subst hval
  have hov : ¬ maxPacketLen < buf.length := by
    unfold maxPacketLen; omega
  have hb1 : ¬ frameEscape = frameBoundary := by decide
  have hb2 : rxIgnore frameEscape = false := by decide
  simp [hdlcStep, hb1, hb2, hov]

/-- Processing a data byte while the escape flag is pending appends the
    unescaped byte, provided the byte is not a frame boundary and is not in
    the receive-ignore set. -/
lemma hdlcStep_escaped_data (s : HDLCRx) (m : Nat) (hesc : s.isEscaped = true)
    (hval : s.isValid = true) (hne : ¬ m = frameBoundary)
    (hig : rxIgnore m = false) (hlen : s.rxBuf.length + 1 ≤ 256) :
    hdlcStep s m =
      { s with isEscaped := false, rxBuf := s.rxBuf ++ [m ^^^ escapeXOR] } := by
  obtain ⟨buf, esc, valid, del⟩ := s
  dsimp only at hesc hval hlen
  subst hesc
  subst hval
  have hov : ¬ maxPacketLen < (buf ++ [m ^^^ escapeXOR]).length := by
    unfold maxPacketLen
    rw [List.length_append]
    simp
    omega
  simp [hdlcStep, hne, hig, hov]
  unfold maxPacketLen
  omega

/-- Processing a plain byte (not a boundary, not the escape byte, not
    ignored) from a clean valid state appends the byte. -/
lemma hdlcStep_plain (s : HDLCRx) (m : Nat) (hesc : s.isEscaped = false)
    (hval : s.isValid = true) (hne : ¬ m = frameBoundary)
    (hnesc : ¬ m = frameEscape) (hig : rxIgnore m = false)
    (hlen : s.rxBuf.length + 1 ≤ 256) :
    hdlcStep s m = { s with rxBuf := s.rxBuf ++ [m] } := by
  obtain ⟨buf, esc, valid, del⟩ := s
  dsimp only at hesc hval hlen
  subst hesc
  subst hval
  have hov : ¬ maxPacketLen < (buf ++ [m]).length := by
    unfold maxPacketLen
    rw [List.length_append]
    simp
    omega
  simp [hdlcStep, hne, hnesc, hig, hov]
  unfold maxPacketLen
  omega

/-- The escaped image of a byte the default table escapes is neither a frame
    boundary nor ignored on receive. -/
lemma escaped_byte_ok (b : Nat) (hb : b < 256) (h : txEscape b = true) :
    ¬ (b ^^^ escapeXOR) = frameBoundary ∧ rxIgnore (b ^^^ escapeXOR) = false := by
  have hcases : b < 0x20 ∨ b = 0x7D ∨ b = 0x7E := by
    unfold txEscape at h
    simp at h
    tauto
  have hsmall : ∀ c : Nat, c < 32 →
      ¬ (c ^^^ 0x20) = 0x7E ∧ ((c ^^^ 0x20) < 0x20) = False := by decide
  rcases hcases with h1 | h1 | h1
  · obtain ⟨ha, hb2⟩ := hsmall b h1
    refine ⟨ha, ?_⟩
    unfold rxIgnore escapeXOR
    simp [hb2]
  · subst h1
    constructor
    · decide
    · decide
  · subst h1
    constructor
    · decide
    · decide

/-- A byte the default table does not escape is neither a boundary nor the
    escape byte nor ignored on receive. -/
lemma plain_byte_ok (b : Nat) (h : txEscape b = false) :
    ¬ b = frameBoundary ∧ ¬ b = frameEscape ∧ rxIgnore b = false := by
  unfold txEscape at h
  simp only [Bool.or_eq_false_iff, decide_eq_false_iff_not] at h
  refine ⟨?_, ?_, ?_⟩
  · unfold frameBoundary
    exact h.2
  · unfold frameEscape
    exact h.1.2
  · unfold rxIgnore
    simp [h.1.1]

lemma xor_involution (b : Nat) : (b ^^^ escapeXOR) ^^^ escapeXOR = b := by
  unfold escapeXOR
  rw [Nat.xor_assoc]
  simp

/-- Feeding the escape-encoding of a payload into the receive loop from a
    clean, valid state appends exactly the payload to the frame buffer, as
    long as the total stays within the default maxPacketLen. -/
lemma hdlcRun_writeEscaped (p : List Nat) (s : HDLCRx)
    (hb : ∀ b ∈ p, b < 256) (hesc : s.isEscaped = false)
    (hval : s.isValid = true) (hlen : s.rxBuf.length + p.length ≤ 256) :
    hdlcRun s (writeEscaped p) = { s with rxBuf := s.rxBuf ++ p } := by
  induction p generalizing s with
  | nil =>
    simp [hdlcRun, writeEscaped]
  | cons b r ih =>
    have hbb : b < 256 := hb b (by simp)
    have hlcons : s.rxBuf.length + (b :: r).length =
        s.rxBuf.length + (1 + r.length) := by simp; omega
    by_cases he : txEscape b
    · have hw : writeEscaped (b :: r) =
          frameEscape :: (b ^^^ escapeXOR) :: writeEscaped r := by
        simp only [writeEscaped]
        rw [if_pos he]
      obtain ⟨hne2, hig2⟩ := escaped_byte_ok b hbb he
      rw [hw, hdlcRun_cons, hdlcRun_cons]
      rw [hdlcStep_escape s hesc hval (by simp at hlen; omega)]
      rw [hdlcStep_escaped_data { s with isEscaped := true } (b ^^^ escapeXOR)
        rfl hval hne2 hig2 (by simp at hlen ⊢; omega)]
      rw [xor_involution]
      rw [ih { s with isEscaped := false, rxBuf := s.rxBuf ++ [b] }
        (fun x hx => hb x (by simp [hx])) rfl hval
        (by simp at hlen ⊢; omega)]
      rw [← hesc]
      simp
    · have hw : writeEscaped (b :: r) = b :: writeEscaped r := by
        simp only [writeEscaped]
        rw [if_neg he]
      obtain ⟨hne2, hnesc2, hig2⟩ := plain_byte_ok b (by simpa using he)
      rw [hw, hdlcRun_cons]
      rw [hdlcStep_plain s b hesc hval hne2 hnesc2 hig2
        (by simp at hlen ⊢; omega)]
      rw [ih { s with rxBuf := s.rxBuf ++ [b] }
        (fun x hx => hb x (by simp [hx])) hesc hval
        (by simp at hlen ⊢; omega)]
      simp

/-- A frame-end byte on a clean valid state holding a non-empty frame
    delivers the frame buffer to the handler and resets the frame state. -/
lemma hdlcStep_boundary_deliver (s : HDLCRx) (hesc : s.isEscaped = false)
    (hval : s.isValid = true) (hne : 0 < s.rxBuf.length) :
    hdlcStep s frameBoundary =
      { s with rxBuf := [], delivered := s.delivered ++ [s.rxBuf] } := by
  obtain ⟨buf, esc, valid, del⟩ := s
  dsimp only at hesc hval hne
  subst hesc
  subst hval
  simp [hdlcStep, hdlcReset, hne]

/-- C1 (amended): with the default framer configuration (boundary 0x7E,
    escape 0x7D, escape-xor 0x20, default escape/ignore tables, CRC none,
    maxPacketLen 256), feeding the exact wire bytes of SendPacket(p) into
    the receive loop invokes the received-packet handler exactly once, with
    a payload equal to p, for every payload of length between 1 and 256. -/
theorem hdlc_roundtrip (p : List Nat) (hb : ∀ b ∈ p, b < 256)
    (h1 : 1 ≤ p.length) (h2 : p.length ≤ 256) :
    (hdlcRun hdlcRxInit (sendWire p)).delivered = [p] := by
  have hfirst : hdlcStep hdlcRxInit frameBoundary = hdlcRxInit := by decide
  have hmid := hdlcRun_writeEscaped p hdlcRxInit hb rfl rfl
    (by simpa [hdlcRxInit] using h2)
  unfold sendWire crcNoneBytes
  rw [show writeEscaped [] = [] from rfl, List.append_nil]
  rw [hdlcRun_append]
  rw [hdlcRun_cons hdlcRxInit frameBoundary (writeEscaped p)]
  rw [hfirst, hmid]
  show (hdlcStep { hdlcRxInit with rxBuf := hdlcRxInit.rxBuf ++ p }
      frameBoundary).delivered = [p]
  rw [hdlcStep_boundary_deliver _ rfl rfl (by simp [hdlcRxInit]; omega)]
  simp [hdlcRxInit]

/-- Witness for C1 at the spec's concrete frame: payload 7E 7D 11 (whose
    wire form is 7E 7D 5E 7D 5D 7D 31 7E) comes back as exactly one
    delivered packet equal to the payload. -/
theorem hdlc_roundtrip_witness :
    (hdlcRun hdlcRxInit (sendWire [0x7E, 0x7D, 0x11])).delivered =
      [[0x7E, 0x7D, 0x11]] :=
  hdlc_roundtrip [0x7E, 0x7D, 0x11] (by decide) (by decide) (by decide)

set_option maxRecDepth 2000 in
/-- C1 counterexample: the claim as stated quantifies over every payload,
    but the empty payload's frame (7E 7E with the default none CRC) is
    counted as a zero-length frame on receive and the handler runs zero
    times, not once.  The second conjunct records the other boundary the
    amendment keeps: the byte that pushes a frame past the default
    maxPacketLen 256 marks it invalid, and the frame-end branch never
    delivers an invalid frame. -/
theorem hdlc_roundtrip_cex :
    (hdlcRun hdlcRxInit (sendWire [])).delivered = [] ∧
    (hdlcStep { rxBuf := List.replicate 256 0x21, isEscaped := false,
                isValid := true, delivered := [] } 0x21).isValid = false := by
  constructor
  · rfl
  · rfl

end ClaimC1
